import Mathlib

/-!
Verification development for `exiflib/exif.py` (EXIF metadata extraction).

The Python module reads EXIF metadata from an image file, decodes numeric
tag ids to tag names via the PIL `TAGS` / `GPSTAGS` tables, converts the
GPS rational triples to decimal latitude / longitude, and returns the
result as a pandas Series (modelled here as an ordered key-value list).

Python dictionaries are modelled as ordered association lists with
Python's insertion semantics (assigning to an existing key updates the
value in place, otherwise appends).  Python floats are modelled as `ℚ`
(all arithmetic performed by the source is division and addition of
integer-valued rationals).  Exceptions are modelled with `Except`.
-/

namespace Exiflib

/-- A Python dictionary key as used by the source: `TAGS.get(k)` can
produce `None`, decoded names are strings, raw EXIF tag ids are ints. -/
inductive Key where
  | none : Key
  | str : String → Key
  | nat : Nat → Key
deriving DecidableEq

/-- A Python value as relevant to the source: ints, strings, floats
(modelled as `ℚ`), GPS coordinates (three Rational pairs, each a
`(numerator, denominator)` tuple of ints), a nested GPS tag dictionary
(for the `GPSInfo` value), and `None`. -/
inductive Val where
  | int : Int → Val
  | str : String → Val
  | flt : ℚ → Val
  | coord : Int × Int → Int × Int → Int × Int → Val
  | sub : List (Key × Val) → Val
  | none : Val

/-- An ordered dictionary / pandas Series: a key-value list. -/
abbrev Rec := List (Key × Val)

/-- Python exceptions raised by the modelled code paths. -/
inductive PyErr where
  | zeroDivision : PyErr
  | typeError : PyErr
  | unboundLocal : PyErr
deriving DecidableEq

/-- Python `d[k] = v`: update in place if the key exists, else append. -/
def dinsert (k : Key) (v : Val) (d : Rec) : Rec :=
  if (d.map Prod.fst).contains k then
    d.map (fun p => if p.1 = k then (k, v) else p)
  else d ++ [(k, v)]

/-- Python `d.get(k)` / `d[k]`: first (and only) binding of `k`. -/
def dget (k : Key) : Rec → Option Val
  | [] => Option.none
  | p :: d => if p.1 = k then some p.2 else dget k d

/-- The keys of a record, in order. -/
def dkeys (d : Rec) : List Key := d.map Prod.fst

/-- Python `d.pop(k)` (guarded by `if k in d`): remove the binding of `k`. -/
def dpop (k : Key) (d : Rec) : Rec := d.filter (fun p => p.1 ≠ k)

/-- Python truthiness of the modelled values. -/
def pyTruthy : Val → Bool
  | .int n => n ≠ 0
  | .str s => s ≠ ""
  | .flt q => q ≠ 0
  | .coord _ _ _ => true
  | .sub m => ¬ m.isEmpty
  | .none => false

/-- Truthiness of a `d.get` result (`None` for a missing key is falsy). -/
def truthyO : Option Val → Bool
  | Option.none => false
  | some v => pyTruthy v

/-- A tag-name table (`PIL.ExifTags.TAGS` / `GPSTAGS`): a finite map
from numeric tag ids to names. -/
abbrev Table := List (Nat × String)

/-- Python `tbl.get(n)` on a tag table. -/
def tblGet (tbl : Table) (n : Nat) : Option String :=
  match tbl.find? (fun p => p.1 == n) with
  | some p => some p.2
  | Option.none => Option.none

/-- `TAGS.get(k)` applied to an arbitrary dictionary key, as a `Key`:
only int keys can hit the table; a miss yields Python `None`. -/
def tagsGet (tbl : Table) : Key → Key
  | Key.nat n =>
    match tblGet tbl n with
    | some s => Key.str s
    | Option.none => Key.none
  | _ => Key.none

/-- The decode loop `for k, v in raw.items(): data[tbl.get(k)] = v`. -/
def decodeLoop (tbl : Table) (raw : List (Key × Val)) : Rec :=
  raw.foldl (fun d kv => dinsert (tagsGet tbl kv.1) kv.2 d) []

/-- `_convert_to_degrees(value)`: reads `value[i][j]` for the three
Rational pairs and computes `deg + mns/60.0 + sec/3600.00` by float
division.  A zero denominator raises `ZeroDivisionError` (in source
order: degrees, then minutes, then seconds); a value that is not a
triple of pairs fails on the indexing. -/
def convert_to_degrees (value : Val) : Except PyErr ℚ :=
  match value with
  | .coord (d0, d1) (m0, m1) (s0, s1) =>
    if d1 = 0 then .error .zeroDivision
    else if m1 = 0 then .error .zeroDivision
    else if s1 = 0 then .error .zeroDivision
    else .ok ((d0 : ℚ) / (d1 : ℚ) + ((m0 : ℚ) / (m1 : ℚ)) / 60 + ((s0 : ℚ) / (s1 : ℚ)) / 3600)
  | _ => .error .typeError

/-- Python `x != 'C'` negated, for the hemisphere tests: `true` exactly
when the looked-up value is the string `c`. -/
def refIs (c : String) : Option Val → Bool
  | some (Val.str s) => s = c
  | _ => false

/-- `_get_lat_lon(gps_data)`.  When any of the four parts is missing or
falsy, the `if all([...])` guard is skipped and `return lat, lon` raises
`UnboundLocalError`; otherwise the two values are converted (latitude
first) and negated unless the reference compares equal to `'N'` / `'E'`. -/
def get_lat_lon (gps_data : Rec) : Except PyErr (ℚ × ℚ) :=
  let lat_val := dget (Key.str "GPSLatitude") gps_data
  let lon_val := dget (Key.str "GPSLongitude") gps_data
  let lat_ref := dget (Key.str "GPSLatitudeRef") gps_data
  let lon_ref := dget (Key.str "GPSLongitudeRef") gps_data
  if truthyO lat_val && truthyO lon_val && truthyO lat_ref && truthyO lon_ref then
    match convert_to_degrees (lat_val.getD Val.none) with
    | .error e => .error e
    | .ok lat0 =>
      match convert_to_degrees (lon_val.getD Val.none) with
      | .error e => .error e
      | .ok lon0 =>
        .ok ((if refIs "N" lat_ref then lat0 else 0 - lat0),
             (if refIs "E" lon_ref then lon0 else 0 - lon0))
  else .error .unboundLocal

/-- The part of the path after the last `/` (`os.path.basename`). -/
def afterLastSlash : List Char → List Char
  | [] => []
  | c :: cs => if c = '/' ∨ cs.contains '/' then afterLastSlash cs else c :: cs

/-- `os.path.basename(p)`. -/
def basename (p : String) : String := String.mk (afterLastSlash p.data)

/-- The suffix of the list starting at its last `.`, if any. -/
def fromLastDot : List Char → Option (List Char)
  | [] => Option.none
  | c :: cs =>
    match fromLastDot cs with
    | some r => some r
    | Option.none => if c = '.' then some (c :: cs) else Option.none

/-- The extension part of `os.path.splitext`, computed on the basename:
leading dots of the basename do not start an extension. -/
def splitextExtension (p : String) : List Char :=
  match fromLastDot ((afterLastSlash p.data).dropWhile (fun c => c = '.')) with
  | some r => r
  | Option.none => []

/-- ASCII lower-casing of `os.path.splitext(p)[1].lower()` (the only
comparison made is against the ASCII string `.mov`). -/
def isMov (p : String) : Bool :=
  (splitextExtension p).map Char.toLower = ['.', 'm', 'o', 'v']

/-- `_test_for_mov(filename)`: for a `.mov` file, a default data
dictionary and the `dict(default=None)` GPS marker; otherwise
`(None, None)`. -/
def test_for_mov (filename : String) : Option Rec × Option Rec :=
  if isMov filename then
    (some [(Key.str "Fullpath", Val.str filename),
           (Key.str "Filename", Val.str (basename filename))],
     some [(Key.str "default", Val.none)])
  else (Option.none, Option.none)

/-- What the image file yields to `Image.open(filename)._getexif()`:
`Option.none` models the call raising (caught in `_get_image_data`,
which then returns its initial `{}`); `some Option.none` models
`_getexif()` returning Python `None`; `some (some raw)` a raw tag map. -/
structure File where
  exif : Option (Option (List (Key × Val)))

/-- `_get_image_data(filename)` for an existing file: the raw map or
Python `None` from `_getexif()`, or `{}` when the read raised. -/
def get_image_data (f : File) : Option (List (Key × Val)) :=
  match f.exif with
  | Option.none => some []
  | some r => r

/-- Lines 186-187 / 204-205: `data['Fullpath'] = filename;
data['Filename'] = os.path.basename(filename)`. -/
def addFileVals (filename : String) (d : Rec) : Rec :=
  dinsert (Key.str "Filename") (Val.str (basename filename))
    (dinsert (Key.str "Fullpath") (Val.str filename) d)

/-- The general record built by `_extract_exif_data` before the GPS
step: decode the raw tag ids, pop the `None` key, add the file values. -/
def general_data (TAGS : Table) (raw : List (Key × Val)) (filename : String) : Rec :=
  addFileVals filename (dpop Key.none (decodeLoop TAGS raw))

/-- `_extract_exif_data(img_data, filename)`: returns the
`(data, gps_data)` pair.  `img_data = Option.none` models Python `None`
(whose `.items()` raises, caught by the handler with both dictionaries
still empty).  A `GPSInfo` value that is not a dictionary raises on
`.items()`; a failed `_get_lat_lon` raises; both are caught by the
handler, which re-asserts the file values on the partial `data` and
returns the partial pair. -/
def extract_exif_data_impl (TAGS GPSTAGS : Table)
    (img_data : Option (List (Key × Val))) (filename : String) : Rec × Rec :=
  match img_data with
  | Option.none => (addFileVals filename [], [])
  | some raw =>
    let data := general_data TAGS raw filename
    match dget (Key.str "GPSInfo") data with
    | Option.none => (data, [])
    | some (Val.sub m) =>
      let gps := decodeLoop GPSTAGS m
      match get_lat_lon gps with
      | .error _ => (addFileVals filename data, gps)
      | .ok (la, lo) =>
        (data, dinsert (Key.str "Longitude") (Val.flt lo)
                 (dinsert (Key.str "Latitude") (Val.flt la) gps))
    | some _ => (addFileVals filename data, [])

/-- `extract_exif_data(filename)`: the entry point.  `world` models the
file system; a missing file falls off the `if u.fileexists` branch and
returns Python `None`.  The `.mov` fast path supplies the default data
dictionary as `img_data` (note that its GPS marker dictionary is
overwritten by the `_extract_exif_data` call on line 89).  The result
series is the concatenation when both dictionaries are truthy, else the
general dictionary alone. -/
def extract_exif_data (TAGS GPSTAGS : Table) (world : String → Option File)
    (filename : String) : Option Rec :=
  match world filename with
  | Option.none => Option.none
  | some f =>
    let mov := test_for_mov filename
    let img_data : Option (List (Key × Val)) :=
      match mov.1 with
      | some d => if d.isEmpty then get_image_data f else some d
      | Option.none => get_image_data f
    let dg := extract_exif_data_impl TAGS GPSTAGS img_data filename
    if dg.1.isEmpty || dg.2.isEmpty then some dg.1 else some (dg.1 ++ dg.2)

/-- A GPS dictionary holding exactly the four conversion fields. -/
def mkGps (latv lonv latr lonr : Val) : Rec :=
  [(Key.str "GPSLatitude", latv), (Key.str "GPSLongitude", lonv),
   (Key.str "GPSLatitudeRef", latr), (Key.str "GPSLongitudeRef", lonr)]

/-! Concrete fixtures (small stand-ins for the PIL tag tables and for
image files), used to exercise the theorems on closed inputs. -/

/-- A small slice of the `TAGS` table. -/
def tagsEx : Table := [(1, "Make"), (2, "GPSInfo")]

/-- A small slice of the `GPSTAGS` table. -/
def gpstagsEx : Table :=
  [(3, "GPSLatitude"), (4, "GPSLongitude"),
   (5, "GPSLatitudeRef"), (6, "GPSLongitudeRef"), (7, "GPSSpeed")]

/-- 10 degrees 30 minutes 0 seconds. -/
def coordLat : Val := Val.coord (10, 1) (30, 1) (0, 1)

/-- 20 degrees 0 minutes 0 seconds. -/
def coordLon : Val := Val.coord (20, 1) (0, 1) (0, 1)

/-- A complete GPS sub-map (tag ids 3-6). -/
def gpsFull : List (Key × Val) :=
  [(Key.nat 3, coordLat), (Key.nat 4, coordLon),
   (Key.nat 5, Val.str "N"), (Key.nat 6, Val.str "E")]

/-- A raw tag map with one general tag and a complete GPS sub-map. -/
def rawFull : List (Key × Val) :=
  [(Key.nat 1, Val.int 7), (Key.nat 2, Val.sub gpsFull)]

/-- A raw tag map whose GPS sub-map lacks the reference fields. -/
def rawMissing : List (Key × Val) :=
  [(Key.nat 2, Val.sub [(Key.nat 3, coordLat), (Key.nat 4, coordLon)])]

/-- A raw tag map whose GPS latitude has a zero denominator. -/
def rawZero : List (Key × Val) :=
  [(Key.nat 2, Val.sub [(Key.nat 3, Val.coord (10, 0) (30, 1) (0, 1)),
                        (Key.nat 4, coordLon),
                        (Key.nat 5, Val.str "N"), (Key.nat 6, Val.str "E")])]

/-- A raw tag map whose GPS sub-map holds only an unknown tag id. -/
def rawUnknown : List (Key × Val) :=
  [(Key.nat 2, Val.sub [(Key.nat 99, Val.int 5)])]

/-- A raw tag map with a general tag and a GPS sub-map holding only an
unknown tag id. -/
def rawPartial : List (Key × Val) :=
  [(Key.nat 1, Val.int 7), (Key.nat 2, Val.sub [(Key.nat 9, Val.int 1)])]

/-- A raw tag map whose `GPSInfo` value is not a dictionary (as PIL
produces for an unresolved GPS IFD offset). -/
def rawBadGps : List (Key × Val) := [(Key.nat 2, Val.int 3)]

/-- A one-file file system. -/
def worldOf (fn : String) (raw : List (Key × Val)) : String → Option File :=
  fun s => if s = fn then some ⟨some (some raw)⟩ else Option.none

/-! ### Dictionary lemmas -/

theorem dget_eq_none_iff {k : Key} {d : Rec} : dget k d = Option.none ↔ k ∉ dkeys d := by
  induction d with
  | nil => simp [dget, dkeys]
  | cons p d ih =>
    by_cases h : p.1 = k
    · simp [dget, dkeys, h]
    · simp [dget, dkeys, h, ih, Ne.symm h]

theorem mem_dkeys_of_dget {k : Key} {d : Rec} {v : Val} (h : dget k d = some v) :
    k ∈ dkeys d := by
  by_contra hk
  rw [← dget_eq_none_iff] at hk
  rw [h] at hk
  exact Option.noConfusion hk

theorem dkeys_append (d g : Rec) : dkeys (d ++ g) = dkeys d ++ dkeys g := by
  simp [dkeys]

theorem dget_append (k : Key) (d g : Rec) :
    dget k (d ++ g) = match dget k d with
      | some v => some v
      | Option.none => dget k g := by
  induction d with
  | nil => simp [dget]
  | cons p d ih =>
    by_cases h : p.1 = k
    · simp [dget, h]
    · simpa [dget, h] using ih

theorem dget_append_left {k : Key} {d : Rec} {v : Val} (h : dget k d = some v) (g : Rec) :
    dget k (d ++ g) = some v := by
  rw [dget_append, h]

theorem contains_iff_mem_dkeys {k : Key} {d : Rec} :
    (d.map Prod.fst).contains k = true ↔ k ∈ dkeys d := by
  simp [dkeys, List.contains_iff_exists_mem_beq, eq_comm]

/-- When the key is absent, `d[k] = v` appends. -/
theorem dinsert_eq_append {k : Key} {d : Rec} (h : k ∉ dkeys d) (v : Val) :
    dinsert k v d = d ++ [(k, v)] := by
  rw [dinsert, if_neg]
  rw [contains_iff_mem_dkeys]
  exact h

/-- When the key is present, `d[k] = v` keeps the key order. -/
theorem dkeys_dinsert_of_mem {k : Key} {d : Rec} (h : k ∈ dkeys d) (v : Val) :
    dkeys (dinsert k v d) = dkeys d := by
  rw [dinsert, if_pos (contains_iff_mem_dkeys.mpr h)]
  simp only [dkeys, List.map_map]
  refine List.map_congr_left (fun p _ => ?_)
  by_cases hp : p.1 = k <;> simp [hp]

theorem dkeys_dinsert_of_not_mem {k : Key} {d : Rec} (h : k ∉ dkeys d) (v : Val) :
    dkeys (dinsert k v d) = dkeys d ++ [k] := by
  rw [dinsert_eq_append h, dkeys_append]
  rfl

theorem mem_dkeys_dinsert {a k : Key} {v : Val} {d : Rec}
    (h : a ∈ dkeys (dinsert k v d)) : a = k ∨ a ∈ dkeys d := by
  by_cases hk : k ∈ dkeys d
  · rw [dkeys_dinsert_of_mem hk] at h
    exact Or.inr h
  · rw [dkeys_dinsert_of_not_mem hk] at h
    rcases List.mem_append.mp h with h | h
    · exact Or.inr h
    · simp only [List.mem_singleton] at h
      exact Or.inl h

theorem nodup_dkeys_dinsert {d : Rec} (h : (dkeys d).Nodup) (k : Key) (v : Val) :
    (dkeys (dinsert k v d)).Nodup := by
  by_cases hk : k ∈ dkeys d
  · rwa [dkeys_dinsert_of_mem hk]
  · rw [dkeys_dinsert_of_not_mem hk]
    simpa [List.nodup_append] using ⟨h, hk⟩

theorem dget_dinsert_self (k : Key) (v : Val) (d : Rec) :
    dget k (dinsert k v d) = some v := by
  by_cases hk : k ∈ dkeys d
  · rw [dinsert, if_pos (contains_iff_mem_dkeys.mpr hk)]
    induction d with
    | nil => simp [dkeys] at hk
    | cons p d ih =>
      by_cases hp : p.1 = k
      · simp [dget, hp]
      · simp only [dkeys, List.map_cons, List.mem_cons, hp] at hk
        have hk' : k ∈ dkeys d := by
          rcases hk with hk | hk
          · exact absurd hk.symm hp
          · simpa [dkeys] using hk
        simpa [dget, hp] using ih hk'
  · rw [dinsert_eq_append hk, dget_append, dget_eq_none_iff.mpr hk]
    simp [dget]

theorem dget_map_update_ne {a k : Key} {v : Val} (h : a ≠ k) :
    ∀ d : Rec, dget a (d.map (fun q => if q.1 = k then (k, v) else q)) = dget a d
  | [] => rfl
  | p :: d => by
    have ih := dget_map_update_ne (v := v) h d
    by_cases hp : p.1 = k
    · have h1 : ¬ (k = a) := fun hh => h hh.symm
      have h2 : ¬ (p.1 = a) := by rw [hp]; exact h1
      simp only [List.map_cons, if_pos hp, dget, if_neg h1, if_neg h2, ih]
    · simp only [List.map_cons, if_neg hp, dget, ih]

theorem dget_dinsert_ne {a k : Key} (h : a ≠ k) (v : Val) (d : Rec) :
    dget a (dinsert k v d) = dget a d := by
  rw [dinsert]
  by_cases hk : (d.map Prod.fst).contains k
  · rw [if_pos hk]
    exact dget_map_update_ne h d
  · rw [if_neg hk, dget_append]
    cases hd : dget a d with
    | some w => rfl
    | none =>
      have h1 : ¬ (k = a) := fun hh => h hh.symm
      simp [dget, h1]

theorem map_update_eq_self {k : Key} {v : Val} :
    ∀ {d : Rec}, (dkeys d).Nodup → dget k d = some v →
      d.map (fun q => if q.1 = k then (k, v) else q) = d
  | [], _, hv => by simp [dget] at hv
  | p :: d, hnd, hv => by
    simp only [dkeys, List.map_cons, List.nodup_cons] at hnd
    by_cases hp : p.1 = k
    · simp only [dget, if_pos hp, Option.some.injEq] at hv
      have htail : d.map (fun q => if q.1 = k then (k, v) else q) = d := by
        have hcongr : ∀ q ∈ d, (if q.1 = k then (k, v) else q) = q := by
          intro q hq
          have hqk : q.1 ≠ k := by
            intro hqk
            have hq1 : q.1 ∈ d.map Prod.fst := List.mem_map.mpr ⟨q, hq, rfl⟩
            rw [hqk, ← hp] at hq1
            exact hnd.1 hq1
          simp [hqk]
        exact (List.map_congr_left hcongr).trans (List.map_id d)
      have hhead : (if p.1 = k then (k, v) else p) = p := by
        rw [if_pos hp]
        exact (Prod.ext hp hv).symm
      simp only [List.map_cons, hhead, htail]
    · simp only [dget, if_neg hp] at hv
      have htail := map_update_eq_self (k := k) (v := v) (d := d) hnd.2 hv
      simp only [List.map_cons, if_neg hp, htail]

/-- Re-assigning the value a (key-unique) dictionary already holds is a
no-op. -/
theorem dinsert_eq_self {k : Key} {v : Val} {d : Rec}
    (hnd : (dkeys d).Nodup) (hv : dget k d = some v) : dinsert k v d = d := by
  rw [dinsert, if_pos (contains_iff_mem_dkeys.mpr (mem_dkeys_of_dget hv))]
  exact map_update_eq_self hnd hv

theorem dinsert_ne_nil (k : Key) (v : Val) (d : Rec) : (dinsert k v d).isEmpty = false := by
  rw [dinsert]
  by_cases h : (d.map Prod.fst).contains k
  · rw [if_pos h]
    cases d with
    | nil => simp at h
    | cons p d => simp
  · rw [if_neg h]
    cases d <;> simp

theorem mem_dkeys_dpop {a k : Key} {d : Rec} :
    a ∈ dkeys (dpop k d) ↔ a ∈ dkeys d ∧ a ≠ k := by
  simp only [dkeys, dpop]
  constructor
  · intro h
    rcases List.mem_map.mp h with ⟨p, hp, rfl⟩
    rcases List.mem_filter.mp hp with ⟨hpd, hpk⟩
    exact ⟨List.mem_map.mpr ⟨p, hpd, rfl⟩, by simpa using hpk⟩
  · rintro ⟨h1, h2⟩
    rcases List.mem_map.mp h1 with ⟨p, hp, rfl⟩
    exact List.mem_map.mpr ⟨p, List.mem_filter.mpr ⟨hp, by simpa using h2⟩, rfl⟩

theorem nodup_dkeys_dpop {d : Rec} (h : (dkeys d).Nodup) (k : Key) :
    (dkeys (dpop k d)).Nodup :=
  ((List.filter_sublist d).map Prod.fst).nodup h

/-! ### Tag-table and decode-loop lemmas -/

theorem tblGet_mem {tbl : Table} {n : Nat} {s : String} (h : tblGet tbl n = some s) :
    ∃ n', (n', s) ∈ tbl := by
  rw [tblGet] at h
  cases hf : tbl.find? (fun p => p.1 == n) with
  | none => rw [hf] at h; exact Option.noConfusion h
  | some p =>
    rw [hf] at h
    have hp : p ∈ tbl := List.mem_of_find?_eq_some hf
    refine ⟨p.1, ?_⟩
    have : p.2 = s := Option.some.inj h
    rw [← this]
    exact hp

/-- Every key produced by `tbl.get` is `None` or a name from the table. -/
theorem tagsGet_cases (tbl : Table) (k : Key) :
    tagsGet tbl k = Key.none ∨
      ∃ n s, tblGet tbl n = some s ∧ tagsGet tbl k = Key.str s := by
  cases k with
  | none => exact Or.inl rfl
  | str s => exact Or.inl rfl
  | nat n =>
    cases h : tblGet tbl n with
    | none => simp [tagsGet, h]
    | some s =>
      refine Or.inr ⟨n, s, h, ?_⟩
      simp [tagsGet, h]

theorem mem_dkeys_foldl {tbl : Table} {a : Key} :
    ∀ (raw : List (Key × Val)) (d : Rec),
      a ∈ dkeys (raw.foldl (fun d kv => dinsert (tagsGet tbl kv.1) kv.2 d) d) →
      a ∈ dkeys d ∨ ∃ kv, kv ∈ raw ∧ a = tagsGet tbl kv.1
  | [], d, h => Or.inl h
  | kv :: raw, d, h => by
    rcases mem_dkeys_foldl raw (dinsert (tagsGet tbl kv.1) kv.2 d) h with h' | ⟨kv', h1, h2⟩
    · rcases mem_dkeys_dinsert h' with h'' | h''
      · exact Or.inr ⟨kv, List.mem_cons_self kv raw, h''⟩
      · exact Or.inl h''
    · exact Or.inr ⟨kv', List.mem_cons_of_mem kv h1, h2⟩

/-- Every key of the decoded dictionary is `None` or a table name. -/
theorem mem_dkeys_decodeLoop {tbl : Table} {raw : List (Key × Val)} {a : Key}
    (h : a ∈ dkeys (decodeLoop tbl raw)) :
    a = Key.none ∨ ∃ n s, tblGet tbl n = some s ∧ a = Key.str s := by
  rcases mem_dkeys_foldl raw [] h with h' | ⟨kv, _, rfl⟩
  · simp [dkeys] at h'
  · rcases tagsGet_cases tbl kv.1 with h' | ⟨n, s, h1, h2⟩
    · rw [h']; exact Or.inl rfl
    · rw [h2]; exact Or.inr ⟨n, s, h1, rfl⟩

theorem nodup_dkeys_foldl {tbl : Table} :
    ∀ (raw : List (Key × Val)) (d : Rec), (dkeys d).Nodup →
      (dkeys (raw.foldl (fun d kv => dinsert (tagsGet tbl kv.1) kv.2 d) d)).Nodup
  | [], _, h => h
  | kv :: raw, d, h =>
    nodup_dkeys_foldl raw _ (nodup_dkeys_dinsert h _ _)

theorem nodup_dkeys_decodeLoop (tbl : Table) (raw : List (Key × Val)) :
    (dkeys (decodeLoop tbl raw)).Nodup :=
  nodup_dkeys_foldl raw [] (by simp [dkeys])

/-! ### Lemmas about the assembled general record -/

theorem str_fullpath_ne_filename : Key.str "Fullpath" ≠ Key.str "Filename" := by decide

theorem dget_addFileVals_fullpath (filename : String) (d : Rec) :
    dget (Key.str "Fullpath") (addFileVals filename d) = some (Val.str filename) := by
  rw [addFileVals, dget_dinsert_ne str_fullpath_ne_filename, dget_dinsert_self]

theorem dget_addFileVals_filename (filename : String) (d : Rec) :
    dget (Key.str "Filename") (addFileVals filename d) = some (Val.str (basename filename)) := by
  rw [addFileVals, dget_dinsert_self]

theorem dget_addFileVals_ne {k : Key} (h1 : k ≠ Key.str "Fullpath")
    (h2 : k ≠ Key.str "Filename") (filename : String) (d : Rec) :
    dget k (addFileVals filename d) = dget k d := by
  rw [addFileVals, dget_dinsert_ne h2, dget_dinsert_ne h1]

theorem mem_dkeys_addFileVals {a : Key} {filename : String} {d : Rec}
    (h : a ∈ dkeys (addFileVals filename d)) :
    a = Key.str "Fullpath" ∨ a = Key.str "Filename" ∨ a ∈ dkeys d := by
  rcases mem_dkeys_dinsert h with h' | h'
  · exact Or.inr (Or.inl h')
  · rcases mem_dkeys_dinsert h' with h'' | h''
    · exact Or.inl h''
    · exact Or.inr (Or.inr h'')

/-- Every key of the general record is `Fullpath`, `Filename`, or a
`TAGS` name (the `None` key produced by unknown ids has been popped). -/
theorem mem_dkeys_general_data {TAGS : Table} {raw : List (Key × Val)}
    {filename : String} {a : Key} (h : a ∈ dkeys (general_data TAGS raw filename)) :
    a = Key.str "Fullpath" ∨ a = Key.str "Filename" ∨
      ∃ n s, tblGet TAGS n = some s ∧ a = Key.str s := by
  rcases mem_dkeys_addFileVals h with h' | h' | h'
  · exact Or.inl h'
  · exact Or.inr (Or.inl h')
  · rcases mem_dkeys_dpop.mp h' with ⟨h1, h2⟩
    rcases mem_dkeys_decodeLoop h1 with h3 | h3
    · exact absurd h3 h2
    · exact Or.inr (Or.inr h3)

theorem nodup_dkeys_general_data (TAGS : Table) (raw : List (Key × Val)) (filename : String) :
    (dkeys (general_data TAGS raw filename)).Nodup :=
  nodup_dkeys_dinsert (nodup_dkeys_dinsert
    (nodup_dkeys_dpop (nodup_dkeys_decodeLoop TAGS raw) Key.none) _ _) _ _

theorem dget_general_data_fullpath (TAGS : Table) (raw : List (Key × Val)) (filename : String) :
    dget (Key.str "Fullpath") (general_data TAGS raw filename) = some (Val.str filename) :=
  dget_addFileVals_fullpath filename _

theorem dget_general_data_filename (TAGS : Table) (raw : List (Key × Val)) (filename : String) :
    dget (Key.str "Filename") (general_data TAGS raw filename) = some (Val.str (basename filename)) :=
  dget_addFileVals_filename filename _

/-- Re-adding the file values to the general record (the `except`
handler's lines 204-205) is a no-op. -/
theorem addFileVals_general_data (TAGS : Table) (raw : List (Key × Val)) (filename : String) :
    addFileVals filename (general_data TAGS raw filename) = general_data TAGS raw filename := by
  rw [addFileVals]
  rw [dinsert_eq_self (nodup_dkeys_general_data TAGS raw filename)
    (dget_general_data_fullpath TAGS raw filename)]
  rw [dinsert_eq_self (nodup_dkeys_general_data TAGS raw filename)
    (dget_general_data_filename TAGS raw filename)]

theorem addFileVals_ne_nil (filename : String) (d : Rec) :
    (addFileVals filename d).isEmpty = false :=
  dinsert_ne_nil _ _ _

/-! ### Branch characterisations of `_extract_exif_data` and the entry point -/

theorem impl_of_none (TAGS GPSTAGS : Table) (filename : String) :
    extract_exif_data_impl TAGS GPSTAGS Option.none filename
      = (addFileVals filename [], []) := rfl

theorem impl_of_no_gps {TAGS GPSTAGS : Table} {raw : List (Key × Val)} {filename : String}
    (h : dget (Key.str "GPSInfo") (general_data TAGS raw filename) = Option.none) :
    extract_exif_data_impl TAGS GPSTAGS (some raw) filename =
      (general_data TAGS raw filename, []) := by
  simp [extract_exif_data_impl, h]

theorem impl_of_gps_error {TAGS GPSTAGS : Table} {raw m : List (Key × Val)}
    {filename : String} {e : PyErr}
    (h : dget (Key.str "GPSInfo") (general_data TAGS raw filename) = some (Val.sub m))
    (he : get_lat_lon (decodeLoop GPSTAGS m) = .error e) :
    extract_exif_data_impl TAGS GPSTAGS (some raw) filename =
      (general_data TAGS raw filename, decodeLoop GPSTAGS m) := by
  simp [extract_exif_data_impl, h, he, addFileVals_general_data]

theorem impl_of_gps_ok {TAGS GPSTAGS : Table} {raw m : List (Key × Val)}
    {filename : String} {la lo : ℚ}
    (h : dget (Key.str "GPSInfo") (general_data TAGS raw filename) = some (Val.sub m))
    (ho : get_lat_lon (decodeLoop GPSTAGS m) = .ok (la, lo)) :
    extract_exif_data_impl TAGS GPSTAGS (some raw) filename =
      (general_data TAGS raw filename,
       dinsert (Key.str "Longitude") (Val.flt lo)
         (dinsert (Key.str "Latitude") (Val.flt la) (decodeLoop GPSTAGS m))) := by
  simp [extract_exif_data_impl, h, ho]

/-- A `GPSInfo` value that is not a dictionary raises on `.items()`,
caught by the handler; the general record is unchanged. -/
theorem impl_of_gps_not_sub {TAGS GPSTAGS : Table} {raw : List (Key × Val)}
    {filename : String} {gv : Val}
    (h : dget (Key.str "GPSInfo") (general_data TAGS raw filename) = some gv)
    (hgv : ∀ m, gv ≠ Val.sub m) :
    extract_exif_data_impl TAGS GPSTAGS (some raw) filename =
      (general_data TAGS raw filename, []) := by
  cases gv with
  | sub m => exact absurd rfl (hgv m)
  | int n => simp [extract_exif_data_impl, h, addFileVals_general_data]
  | str s => simp [extract_exif_data_impl, h, addFileVals_general_data]
  | flt q => simp [extract_exif_data_impl, h, addFileVals_general_data]
  | coord a b c => simp [extract_exif_data_impl, h, addFileVals_general_data]
  | none => simp [extract_exif_data_impl, h, addFileVals_general_data]

/-- In every branch of `_extract_exif_data`, the returned general
dictionary holds the file values. -/
theorem impl_file_vals (TAGS GPSTAGS : Table)
    (img_data : Option (List (Key × Val))) (filename : String) :
    dget (Key.str "Fullpath") (extract_exif_data_impl TAGS GPSTAGS img_data filename).1
        = some (Val.str filename) ∧
      dget (Key.str "Filename") (extract_exif_data_impl TAGS GPSTAGS img_data filename).1
        = some (Val.str (basename filename)) := by
  cases img_data with
  | none =>
    exact ⟨dget_addFileVals_fullpath filename [], dget_addFileVals_filename filename []⟩
  | some raw =>
    have hgen : dget (Key.str "Fullpath") (general_data TAGS raw filename)
          = some (Val.str filename) ∧
        dget (Key.str "Filename") (general_data TAGS raw filename)
          = some (Val.str (basename filename)) :=
      ⟨dget_general_data_fullpath TAGS raw filename,
       dget_general_data_filename TAGS raw filename⟩
    cases hg : dget (Key.str "GPSInfo") (general_data TAGS raw filename) with
    | none => rw [impl_of_no_gps hg]; exact hgen
    | some gv =>
      cases gv with
      | sub m =>
        cases hl : get_lat_lon (decodeLoop GPSTAGS m) with
        | error e =>
          rw [impl_of_gps_error hg hl]
          exact hgen
        | ok p =>
          obtain ⟨la, lo⟩ := p
          rw [impl_of_gps_ok hg hl]
          exact hgen
      | int n => rw [impl_of_gps_not_sub hg (fun m => Val.noConfusion)]; exact hgen
      | str s => rw [impl_of_gps_not_sub hg (fun m => Val.noConfusion)]; exact hgen
      | flt q => rw [impl_of_gps_not_sub hg (fun m => Val.noConfusion)]; exact hgen
      | coord a b c => rw [impl_of_gps_not_sub hg (fun m => Val.noConfusion)]; exact hgen
      | none => rw [impl_of_gps_not_sub hg (fun m => Val.noConfusion)]; exact hgen

/-- When the file exists, is not a `.mov` container, and its raw tag
map was read, the entry point assembles the result from
`_extract_exif_data` on that raw map. -/
theorem extract_of_raw {TAGS GPSTAGS : Table} {world : String → Option File}
    {filename : String} {f : File} {raw : List (Key × Val)}
    (hw : world filename = some f) (hm : isMov filename = false)
    (hf : f.exif = some (some raw)) :
    extract_exif_data TAGS GPSTAGS world filename =
      (if (extract_exif_data_impl TAGS GPSTAGS (some raw) filename).1.isEmpty
          || (extract_exif_data_impl TAGS GPSTAGS (some raw) filename).2.isEmpty
       then some (extract_exif_data_impl TAGS GPSTAGS (some raw) filename).1
       else some ((extract_exif_data_impl TAGS GPSTAGS (some raw) filename).1
                    ++ (extract_exif_data_impl TAGS GPSTAGS (some raw) filename).2)) := by
  simp only [extract_exif_data, hw, test_for_mov, hm, get_image_data, hf,
    Bool.false_eq_true, if_false]

/-- Whenever the file exists, the entry point returns the assembly of
some `_extract_exif_data` call for this filename. -/
theorem extract_of_file (TAGS GPSTAGS : Table) {world : String → Option File}
    {filename : String} {f : File} (hw : world filename = some f) :
    ∃ img, extract_exif_data TAGS GPSTAGS world filename =
      (if (extract_exif_data_impl TAGS GPSTAGS img filename).1.isEmpty
          || (extract_exif_data_impl TAGS GPSTAGS img filename).2.isEmpty
       then some (extract_exif_data_impl TAGS GPSTAGS img filename).1
       else some ((extract_exif_data_impl TAGS GPSTAGS img filename).1
                    ++ (extract_exif_data_impl TAGS GPSTAGS img filename).2)) := by
  cases hm : isMov filename with
  | true =>
    refine ⟨some [(Key.str "Fullpath", Val.str filename),
                  (Key.str "Filename", Val.str (basename filename))], ?_⟩
    simp only [extract_exif_data, hw, test_for_mov, hm, if_true, List.isEmpty_cons,
      Bool.false_eq_true, if_false]
  | false =>
    refine ⟨get_image_data f, ?_⟩
    simp only [extract_exif_data, hw, test_for_mov, hm, Bool.false_eq_true, if_false]

/-! ### Lemmas about `_get_lat_lon` -/

/-- With all four parts present and truthy, `_get_lat_lon` reduces to
the two conversions followed by the hemisphere tests. -/
theorem get_lat_lon_of_truthy {d : Rec} {latv lonv latr lonr : Val}
    (h1 : dget (Key.str "GPSLatitude") d = some latv)
    (h2 : dget (Key.str "GPSLongitude") d = some lonv)
    (h3 : dget (Key.str "GPSLatitudeRef") d = some latr)
    (h4 : dget (Key.str "GPSLongitudeRef") d = some lonr)
    (t1 : pyTruthy latv = true) (t2 : pyTruthy lonv = true)
    (t3 : pyTruthy latr = true) (t4 : pyTruthy lonr = true) :
    get_lat_lon d =
      (match convert_to_degrees latv with
       | .error e => .error e
       | .ok lat0 =>
         match convert_to_degrees lonv with
         | .error e => .error e
         | .ok lon0 =>
           .ok ((if refIs "N" (some latr) then lat0 else 0 - lat0),
                (if refIs "E" (some lonr) then lon0 else 0 - lon0))) := by
  rw [get_lat_lon]
  simp only [h1, h2, h3, h4, truthyO, t1, t2, t3, t4, Bool.and_self, if_true, Option.getD_some]

/-- If any of the four parts is missing or falsy, `_get_lat_lon`
raises `UnboundLocalError` at `return lat, lon`. -/
theorem get_lat_lon_error_of_missing {d : Rec}
    (h : truthyO (dget (Key.str "GPSLatitude") d) = false
       ∨ truthyO (dget (Key.str "GPSLongitude") d) = false
       ∨ truthyO (dget (Key.str "GPSLatitudeRef") d) = false
       ∨ truthyO (dget (Key.str "GPSLongitudeRef") d) = false) :
    get_lat_lon d = .error .unboundLocal := by
  rw [get_lat_lon]
  rcases h with h | h | h | h <;> simp [h]

/-- A coordinate with a zero denominator fails to convert. -/
theorem convert_error_of_zero_denom {a b c : Int × Int}
    (h : a.2 = 0 ∨ b.2 = 0 ∨ c.2 = 0) :
    ∃ e, convert_to_degrees (Val.coord a b c) = .error e := by
  obtain ⟨a0, a1⟩ := a
  obtain ⟨b0, b1⟩ := b
  obtain ⟨c0, c1⟩ := c
  simp only at h
  by_cases h1 : a1 = 0
  · exact ⟨.zeroDivision, by simp [convert_to_degrees, h1]⟩
  · by_cases h2 : b1 = 0
    · exact ⟨.zeroDivision, by simp [convert_to_degrees, h1, h2]⟩
    · have h3 : c1 = 0 := by tauto
      exact ⟨.zeroDivision, by simp [convert_to_degrees, h1, h2, h3]⟩

/-- A coordinate with non-zero denominators converts successfully. -/
theorem convert_ok_of_ne_zero {a b c : Int × Int}
    (h1 : a.2 ≠ 0) (h2 : b.2 ≠ 0) (h3 : c.2 ≠ 0) :
    convert_to_degrees (Val.coord a b c)
      = .ok ((a.1 : ℚ) / (a.2 : ℚ) + ((b.1 : ℚ) / (b.2 : ℚ)) / 60
               + ((c.1 : ℚ) / (c.2 : ℚ)) / 3600) := by
  obtain ⟨a0, a1⟩ := a
  obtain ⟨b0, b1⟩ := b
  obtain ⟨c0, c1⟩ := c
  simp only at h1 h2 h3 ⊢
  simp [convert_to_degrees, h1, h2, h3]

/-! ### Key-absence helpers -/

theorem str_not_mem_decodeLoop {tbl : Table} {raw : List (Key × Val)} {s : String}
    (h : ∀ p ∈ tbl, p.2 ≠ s) : Key.str s ∉ dkeys (decodeLoop tbl raw) := by
  intro hmem
  rcases mem_dkeys_decodeLoop hmem with h' | ⟨n, s', htbl, heq⟩
  · exact Key.noConfusion h'
  · have hs : s = s' := by injection heq
    rcases tblGet_mem htbl with ⟨n', hn'⟩
    exact h (n', s') hn' hs.symm

theorem str_not_mem_general_data {TAGS : Table} {raw : List (Key × Val)}
    {filename : String} {s : String}
    (hs1 : s ≠ "Fullpath") (hs2 : s ≠ "Filename")
    (hT : ∀ p ∈ TAGS, p.2 ≠ s) :
    Key.str s ∉ dkeys (general_data TAGS raw filename) := by
  intro hmem
  rcases mem_dkeys_general_data hmem with h' | h' | ⟨n, s', htbl, heq⟩
  · exact hs1 (by injection h')
  · exact hs2 (by injection h')
  · have hs : s = s' := by injection heq
    rcases tblGet_mem htbl with ⟨n', hn'⟩
    exact hT (n', s') hn' hs.symm

/-- Shared skeleton for C3 / C8: whenever `_get_lat_lon` raises (for
whatever reason), the output record has no `Latitude` / `Longitude`. -/
theorem no_latlon_of_error {TAGS GPSTAGS : Table} {world : String → Option File}
    {filename : String} {f : File} {raw m : List (Key × Val)} {e : PyErr}
    (hw : world filename = some f) (hm : isMov filename = false)
    (hf : f.exif = some (some raw))
    (hg : dget (Key.str "GPSInfo") (general_data TAGS raw filename) = some (Val.sub m))
    (he : get_lat_lon (decodeLoop GPSTAGS m) = .error e)
    (hT : ∀ p ∈ TAGS, p.2 ≠ "Latitude" ∧ p.2 ≠ "Longitude")
    (hG : ∀ p ∈ GPSTAGS, p.2 ≠ "Latitude" ∧ p.2 ≠ "Longitude") :
    ∃ r, extract_exif_data TAGS GPSTAGS world filename = some r ∧
      Key.str "Latitude" ∉ dkeys r ∧ Key.str "Longitude" ∉ dkeys r := by
  have hlat_gen : Key.str "Latitude" ∉ dkeys (general_data TAGS raw filename) :=
    str_not_mem_general_data (by decide) (by decide) (fun p hp => (hT p hp).1)
  have hlon_gen : Key.str "Longitude" ∉ dkeys (general_data TAGS raw filename) :=
    str_not_mem_general_data (by decide) (by decide) (fun p hp => (hT p hp).2)
  have hlat_gps : Key.str "Latitude" ∉ dkeys (decodeLoop GPSTAGS m) :=
    str_not_mem_decodeLoop (fun p hp => (hG p hp).1)
  have hlon_gps : Key.str "Longitude" ∉ dkeys (decodeLoop GPSTAGS m) :=
    str_not_mem_decodeLoop (fun p hp => (hG p hp).2)
  rw [extract_of_raw hw hm hf, impl_of_gps_error hg he]
  by_cases hge : (decodeLoop GPSTAGS m).isEmpty
  · refine ⟨general_data TAGS raw filename, ?_, hlat_gen, hlon_gen⟩
    simp [hge]
  · refine ⟨general_data TAGS raw filename ++ decodeLoop GPSTAGS m, ?_, ?_, ?_⟩
    · have hgen : (general_data TAGS raw filename).isEmpty = false :=
        addFileVals_ne_nil filename _
      simp only [hgen, Bool.false_or]
      rw [if_neg hge]
    · rw [dkeys_append]
      intro hmem
      rcases List.mem_append.mp hmem with h' | h'
      · exact hlat_gen h'
      · exact hlat_gps h'
    · rw [dkeys_append]
      intro hmem
      rcases List.mem_append.mp hmem with h' | h'
      · exact hlon_gen h'
      · exact hlon_gps h'

/-! ### Structure of the assembled records -/

theorem nodup_dkeys_addFileVals {d : Rec} (h : (dkeys d).Nodup) (filename : String) :
    (dkeys (addFileVals filename d)).Nodup :=
  nodup_dkeys_dinsert (nodup_dkeys_dinsert h _ _) _ _

theorem str_not_mem_dpop_decode {tbl : Table} {raw : List (Key × Val)} {s : String}
    (h : ∀ p ∈ tbl, p.2 ≠ s) :
    Key.str s ∉ dkeys (dpop Key.none (decodeLoop tbl raw)) := by
  intro hmem
  exact str_not_mem_decodeLoop h (mem_dkeys_dpop.mp hmem).1

/-- With tables that never produce the two file-value names, the
general record is literally the decoded fields followed by `Fullpath`
and `Filename`. -/
theorem general_data_eq_append {TAGS : Table} {raw : List (Key × Val)} {filename : String}
    (hT1 : ∀ p ∈ TAGS, p.2 ≠ "Fullpath") (hT2 : ∀ p ∈ TAGS, p.2 ≠ "Filename") :
    general_data TAGS raw filename
      = dpop Key.none (decodeLoop TAGS raw)
          ++ [(Key.str "Fullpath", Val.str filename),
              (Key.str "Filename", Val.str (basename filename))] := by
  have hfp : Key.str "Fullpath" ∉ dkeys (dpop Key.none (decodeLoop TAGS raw)) :=
    str_not_mem_dpop_decode hT1
  have hfn : Key.str "Filename"
      ∉ dkeys (dpop Key.none (decodeLoop TAGS raw) ++ [(Key.str "Fullpath", Val.str filename)]) := by
    rw [dkeys_append]
    intro hmem
    rcases List.mem_append.mp hmem with h' | h'
    · exact str_not_mem_dpop_decode hT2 h'
    · simp only [dkeys, List.map_cons, List.map_nil, List.mem_singleton] at h'
      exact str_fullpath_ne_filename h'.symm
  rw [general_data, addFileVals, dinsert_eq_append hfp, dinsert_eq_append hfn,
    List.append_assoc]
  rfl

/-- With a GPS table that never produces the two computed names, the
GPS record after a successful conversion is literally the decoded
fields followed by `Latitude` and `Longitude`. -/
theorem gps_record_eq_append {GPSTAGS : Table} {m : List (Key × Val)} {la lo : ℚ}
    (hG1 : ∀ p ∈ GPSTAGS, p.2 ≠ "Latitude") (hG2 : ∀ p ∈ GPSTAGS, p.2 ≠ "Longitude") :
    dinsert (Key.str "Longitude") (Val.flt lo)
        (dinsert (Key.str "Latitude") (Val.flt la) (decodeLoop GPSTAGS m))
      = decodeLoop GPSTAGS m
          ++ [(Key.str "Latitude", Val.flt la), (Key.str "Longitude", Val.flt lo)] := by
  have hla : Key.str "Latitude" ∉ dkeys (decodeLoop GPSTAGS m) :=
    str_not_mem_decodeLoop hG1
  have hlo : Key.str "Longitude"
      ∉ dkeys (decodeLoop GPSTAGS m ++ [(Key.str "Latitude", Val.flt la)]) := by
    rw [dkeys_append]
    intro hmem
    rcases List.mem_append.mp hmem with h' | h'
    · exact str_not_mem_decodeLoop hG2 h'
    · simp only [dkeys, List.map_cons, List.map_nil, List.mem_singleton] at h'
      exact absurd (by injection h' : "Longitude" = "Latitude") (by decide)
  rw [dinsert_eq_append hla, dinsert_eq_append hlo, List.append_assoc]
  rfl

/-- The general record's keys never collide with the decoded GPS keys
or the computed coordinate keys, under the stated table hypotheses. -/
theorem disjoint_general_gps {TAGS GPSTAGS : Table} {raw m : List (Key × Val)}
    {filename : String}
    (hG : ∀ p ∈ GPSTAGS, p.2 ≠ "Fullpath" ∧ p.2 ≠ "Filename")
    (hTG : ∀ p ∈ TAGS, ∀ q ∈ GPSTAGS, p.2 ≠ q.2) :
    ∀ a ∈ dkeys (general_data TAGS raw filename), a ∉ dkeys (decodeLoop GPSTAGS m) := by
  intro a ha hb
  rcases mem_dkeys_decodeLoop hb with hb' | ⟨n, s', htbl, hb'⟩
  · subst hb'
    rcases mem_dkeys_general_data ha with h' | h' | ⟨_, _, _, h'⟩ <;> exact Key.noConfusion h'
  · subst hb'
    rcases tblGet_mem htbl with ⟨n', hn'⟩
    rcases mem_dkeys_general_data ha with h' | h' | ⟨k, s, htbl2, h'⟩
    · exact (hG (n', s') hn').1 (by injection h' : s' = "Fullpath")
    · exact (hG (n', s') hn').2 (by injection h' : s' = "Filename")
    · rcases tblGet_mem htbl2 with ⟨k', hk'⟩
      have hss : s' = s := by injection h'
      exact hTG (k', s) hk' (n', s') hn' hss.symm

/-- In every branch, the two returned dictionaries have unique keys
and no key in common, under the stated table hypotheses. -/
theorem impl_nodup_disjoint (TAGS GPSTAGS : Table)
    (img_data : Option (List (Key × Val))) (filename : String)
    (hT : ∀ p ∈ TAGS, p.2 ≠ "Latitude" ∧ p.2 ≠ "Longitude")
    (hG : ∀ p ∈ GPSTAGS, p.2 ≠ "Fullpath" ∧ p.2 ≠ "Filename")
    (hTG : ∀ p ∈ TAGS, ∀ q ∈ GPSTAGS, p.2 ≠ q.2) :
    (dkeys (extract_exif_data_impl TAGS GPSTAGS img_data filename).1).Nodup
    ∧ (dkeys (extract_exif_data_impl TAGS GPSTAGS img_data filename).2).Nodup
    ∧ ∀ a ∈ dkeys (extract_exif_data_impl TAGS GPSTAGS img_data filename).1,
        a ∉ dkeys (extract_exif_data_impl TAGS GPSTAGS img_data filename).2 := by
  cases img_data with
  | none =>
    rw [impl_of_none]
    refine ⟨nodup_dkeys_addFileVals (d := []) (by simp [dkeys]) filename, List.nodup_nil, ?_⟩
    intro a _ hb
    simp [dkeys] at hb
  | some raw =>
    have hnodup1 := nodup_dkeys_general_data TAGS raw filename
    cases hgi : dget (Key.str "GPSInfo") (general_data TAGS raw filename) with
    | none =>
      rw [impl_of_no_gps hgi]
      exact ⟨hnodup1, List.nodup_nil, fun a _ hb => by simp [dkeys] at hb⟩
    | some gv =>
      cases gv with
      | sub m =>
        cases hl : get_lat_lon (decodeLoop GPSTAGS m) with
        | error e =>
          rw [impl_of_gps_error hgi hl]
          exact ⟨hnodup1, nodup_dkeys_decodeLoop GPSTAGS m, disjoint_general_gps hG hTG⟩
        | ok p =>
          obtain ⟨la, lo⟩ := p
          rw [impl_of_gps_ok hgi hl]
          refine ⟨hnodup1,
            nodup_dkeys_dinsert (nodup_dkeys_dinsert (nodup_dkeys_decodeLoop GPSTAGS m) _ _) _ _,
            ?_⟩
          intro a ha hb
          rcases mem_dkeys_dinsert hb with hb' | hb'
          · subst hb'
            exact str_not_mem_general_data (by decide) (by decide)
              (fun p hp => (hT p hp).2) ha
          · rcases mem_dkeys_dinsert hb' with hb'' | hb''
            · subst hb''
              exact str_not_mem_general_data (by decide) (by decide)
                (fun p hp => (hT p hp).1) ha
            · exact disjoint_general_gps hG hTG a ha hb''
      | int n =>
        rw [impl_of_gps_not_sub hgi (fun m => Val.noConfusion)]
        exact ⟨hnodup1, List.nodup_nil, fun a _ hb => by simp [dkeys] at hb⟩
      | str s =>
        rw [impl_of_gps_not_sub hgi (fun m => Val.noConfusion)]
        exact ⟨hnodup1, List.nodup_nil, fun a _ hb => by simp [dkeys] at hb⟩
      | flt q =>
        rw [impl_of_gps_not_sub hgi (fun m => Val.noConfusion)]
        exact ⟨hnodup1, List.nodup_nil, fun a _ hb => by simp [dkeys] at hb⟩
      | coord a b c =>
        rw [impl_of_gps_not_sub hgi (fun m => Val.noConfusion)]
        exact ⟨hnodup1, List.nodup_nil, fun a _ hb => by simp [dkeys] at hb⟩
      | none =>
        rw [impl_of_gps_not_sub hgi (fun m => Val.noConfusion)]
        exact ⟨hnodup1, List.nodup_nil, fun a _ hb => by simp [dkeys] at hb⟩

/-! ### The claims -/

/-- C1: for every GPS coordinate value of three Rational pairs
`(d0,d1), (m0,m1), (s0,s1)` with non-zero denominators,
`_convert_to_degrees` returns `d0/d1 + (m0/m1)/60 + (s0/s1)/3600`
(division is modelled exactly, over `ℚ`). -/
theorem convert_to_degrees_spec (d0 d1 m0 m1 s0 s1 : Int)
    (hd : d1 ≠ 0) (hm : m1 ≠ 0) (hs : s1 ≠ 0) :
    convert_to_degrees (Val.coord (d0, d1) (m0, m1) (s0, s1))
      = Except.ok ((d0 : ℚ) / (d1 : ℚ) + ((m0 : ℚ) / (m1 : ℚ)) / 60
          + ((s0 : ℚ) / (s1 : ℚ)) / 3600) := by
  simp [convert_to_degrees, hd, hm, hs]

/-- Witness for C1 at `(10,1), (30,1), (45,2)`. -/
theorem convert_to_degrees_spec_witness :
    convert_to_degrees (Val.coord (10, 1) (30, 1) (45, 2))
      = Except.ok (((10 : Int) : ℚ) / ((1 : Int) : ℚ)
          + ((((30 : Int) : ℚ)) / ((1 : Int) : ℚ)) / 60
          + ((((45 : Int) : ℚ)) / ((2 : Int) : ℚ)) / 3600) :=
  convert_to_degrees_spec 10 1 30 1 45 2 (by decide) (by decide) (by decide)

/-- C2: in `_get_lat_lon`, with all four GPS sub-fields present and
truthy (and the two conversions succeeding), the latitude is negated
unless the latitude reference is exactly the string `N` and the
longitude is negated unless the longitude reference is exactly the
string `E`; any other reference value, of any type, yields the negated
value.  Consequently converting with reference `S` yields the negation
of converting with reference `N`. -/
theorem get_lat_lon_hemisphere_sign (d : Rec) (latv lonv latr lonr : Val) (la lo : ℚ)
    (h1 : dget (Key.str "GPSLatitude") d = some latv)
    (h2 : dget (Key.str "GPSLongitude") d = some lonv)
    (h3 : dget (Key.str "GPSLatitudeRef") d = some latr)
    (h4 : dget (Key.str "GPSLongitudeRef") d = some lonr)
    (t1 : pyTruthy latv = true) (t2 : pyTruthy lonv = true)
    (t3 : pyTruthy latr = true) (t4 : pyTruthy lonr = true)
    (c1 : convert_to_degrees latv = Except.ok la)
    (c2 : convert_to_degrees lonv = Except.ok lo) :
    get_lat_lon d = Except.ok
        ((if refIs "N" (some latr) then la else -la),
         (if refIs "E" (some lonr) then lo else -lo))
    ∧ get_lat_lon (mkGps latv lonv (Val.str "S") lonr)
        = (get_lat_lon (mkGps latv lonv (Val.str "N") lonr)).map
            (fun p => (-p.1, p.2)) := by
  constructor
  · rw [get_lat_lon_of_truthy h1 h2 h3 h4 t1 t2 t3 t4]
    simp only [c1, c2, zero_sub]
  · have g1 : dget (Key.str "GPSLatitude") (mkGps latv lonv (Val.str "S") lonr)
        = some latv := rfl
    have g2 : dget (Key.str "GPSLongitude") (mkGps latv lonv (Val.str "S") lonr)
        = some lonv := rfl
    have g3 : dget (Key.str "GPSLatitudeRef") (mkGps latv lonv (Val.str "S") lonr)
        = some (Val.str "S") := rfl
    have g4 : dget (Key.str "GPSLongitudeRef") (mkGps latv lonv (Val.str "S") lonr)
        = some lonr := rfl
    have n1 : dget (Key.str "GPSLatitude") (mkGps latv lonv (Val.str "N") lonr)
        = some latv := rfl
    have n2 : dget (Key.str "GPSLongitude") (mkGps latv lonv (Val.str "N") lonr)
        = some lonv := rfl
    have n3 : dget (Key.str "GPSLatitudeRef") (mkGps latv lonv (Val.str "N") lonr)
        = some (Val.str "N") := rfl
    have n4 : dget (Key.str "GPSLongitudeRef") (mkGps latv lonv (Val.str "N") lonr)
        = some lonr := rfl
    rw [get_lat_lon_of_truthy g1 g2 g3 g4 t1 t2 rfl t4,
        get_lat_lon_of_truthy n1 n2 n3 n4 t1 t2 rfl t4]
    simp only [c1, c2]
    have hS : refIs "N" (some (Val.str "S")) = false := rfl
    have hN : refIs "N" (some (Val.str "N")) = true := rfl
    simp [hS, hN, zero_sub, Except.map]

/-- Witness for C2 on a concrete GPS dictionary with reference `S`. -/
theorem get_lat_lon_hemisphere_sign_witness :
    get_lat_lon (mkGps coordLat coordLon (Val.str "S") (Val.str "E")) = Except.ok
        ((if refIs "N" (some (Val.str "S"))
          then ((10 : Int) : ℚ) / ((1 : Int) : ℚ)
            + ((((30 : Int) : ℚ)) / ((1 : Int) : ℚ)) / 60
            + ((((0 : Int) : ℚ)) / ((1 : Int) : ℚ)) / 3600
          else -(((10 : Int) : ℚ) / ((1 : Int) : ℚ)
            + ((((30 : Int) : ℚ)) / ((1 : Int) : ℚ)) / 60
            + ((((0 : Int) : ℚ)) / ((1 : Int) : ℚ)) / 3600)),
         (if refIs "E" (some (Val.str "E"))
          then ((20 : Int) : ℚ) / ((1 : Int) : ℚ)
            + ((((0 : Int) : ℚ)) / ((1 : Int) : ℚ)) / 60
            + ((((0 : Int) : ℚ)) / ((1 : Int) : ℚ)) / 3600
          else -(((20 : Int) : ℚ) / ((1 : Int) : ℚ)
            + ((((0 : Int) : ℚ)) / ((1 : Int) : ℚ)) / 60
            + ((((0 : Int) : ℚ)) / ((1 : Int) : ℚ)) / 3600)))
    ∧ get_lat_lon (mkGps coordLat coordLon (Val.str "S") (Val.str "E"))
        = (get_lat_lon (mkGps coordLat coordLon (Val.str "N") (Val.str "E"))).map
            (fun p => (-p.1, p.2)) :=
  get_lat_lon_hemisphere_sign
    (mkGps coordLat coordLon (Val.str "S") (Val.str "E"))
    coordLat coordLon (Val.str "S") (Val.str "E") _ _
    rfl rfl rfl rfl rfl rfl rfl rfl rfl rfl

/-- C3: when the GPS sub-map is present but one of the four conversion
fields is absent or falsy, the returned record has no `Latitude` or
`Longitude` key (no default is inserted); the hypotheses on the tables
record that neither PIL table maps a tag id to the names `Latitude` or
`Longitude`. -/
theorem missing_gps_field_no_latlon
    (TAGS GPSTAGS : Table) (world : String → Option File) (filename : String)
    (f : File) (raw m : List (Key × Val))
    (hw : world filename = some f) (hm : isMov filename = false)
    (hf : f.exif = some (some raw))
    (hg : dget (Key.str "GPSInfo") (general_data TAGS raw filename) = some (Val.sub m))
    (hmiss : truthyO (dget (Key.str "GPSLatitude") (decodeLoop GPSTAGS m)) = false
           ∨ truthyO (dget (Key.str "GPSLongitude") (decodeLoop GPSTAGS m)) = false
           ∨ truthyO (dget (Key.str "GPSLatitudeRef") (decodeLoop GPSTAGS m)) = false
           ∨ truthyO (dget (Key.str "GPSLongitudeRef") (decodeLoop GPSTAGS m)) = false)
    (hT : ∀ p ∈ TAGS, p.2 ≠ "Latitude" ∧ p.2 ≠ "Longitude")
    (hG : ∀ p ∈ GPSTAGS, p.2 ≠ "Latitude" ∧ p.2 ≠ "Longitude") :
    ∃ r, extract_exif_data TAGS GPSTAGS world filename = some r ∧
      Key.str "Latitude" ∉ dkeys r ∧ Key.str "Longitude" ∉ dkeys r :=
  no_latlon_of_error hw hm hf hg (get_lat_lon_error_of_missing hmiss) hT hG

/-- Witness for C3: a GPS sub-map lacking both reference fields. -/
theorem missing_gps_field_no_latlon_witness :
    ∃ r, extract_exif_data tagsEx gpstagsEx (worldOf "b.jpg" rawMissing) "b.jpg" = some r ∧
      Key.str "Latitude" ∉ dkeys r ∧ Key.str "Longitude" ∉ dkeys r :=
  missing_gps_field_no_latlon tagsEx gpstagsEx (worldOf "b.jpg" rawMissing) "b.jpg"
    ⟨some (some rawMissing)⟩ rawMissing
    [(Key.nat 3, coordLat), (Key.nat 4, coordLon)]
    rfl rfl rfl rfl (Or.inr (Or.inr (Or.inl rfl))) (by decide) (by decide)

/-- C4 counterexample: on a raw map whose GPS decoding ends in an
exception (`_get_lat_lon` raises `UnboundLocalError` here), the handler
does NOT discard the accumulated content: the decoded general tag
`Make` and the partially decoded GPS dictionary both survive in the
returned pair, contradicting the claim that everything except
`Fullpath` / `Filename` is discarded. -/
theorem exception_discards_counterexample :
    get_lat_lon (decodeLoop ([] : Table) [(Key.nat 9, Val.int 1)])
        = Except.error PyErr.unboundLocal
    ∧ dget (Key.str "Make")
          (extract_exif_data_impl tagsEx [] (some rawPartial) "p/a.jpg").1
        = some (Val.int 7)
    ∧ (extract_exif_data_impl tagsEx [] (some rawPartial) "p/a.jpg").2
        = [(Key.none, Val.int 1)] :=
  ⟨rfl, rfl, rfl⟩

/-- C4 (amended): on any exception — the `.items()` `AttributeError`
during tag decoding (`img_data` is Python `None`), the `.items()`
`AttributeError` during GPS decoding (a `GPSInfo` value that is not a
dictionary), or a failure inside `_get_lat_lon` during coordinate
conversion — the extraction abandons further decoding, KEEPS the
partial general / GPS content accumulated at the exception point
(empty at the first site, the finished general record at the second,
both partial records at the third), re-asserts `Fullpath` and
`Filename` on the general record (a no-op when they are already
present), and returns the pair to the caller instead of propagating
(the modelled function is total, and the file values are present in
the returned general record for every input whatsoever). -/
theorem exception_keeps_partial_data (TAGS GPSTAGS : Table) (filename : String) :
    extract_exif_data_impl TAGS GPSTAGS Option.none filename
        = (addFileVals filename [], [])
    ∧ (∀ (raw : List (Key × Val)) (gv : Val),
        dget (Key.str "GPSInfo") (general_data TAGS raw filename) = some gv →
        (∀ m, gv ≠ Val.sub m) →
        extract_exif_data_impl TAGS GPSTAGS (some raw) filename
          = (general_data TAGS raw filename, []))
    ∧ (∀ (raw m : List (Key × Val)) (e : PyErr),
        dget (Key.str "GPSInfo") (general_data TAGS raw filename) = some (Val.sub m) →
        get_lat_lon (decodeLoop GPSTAGS m) = Except.error e →
        extract_exif_data_impl TAGS GPSTAGS (some raw) filename
          = (general_data TAGS raw filename, decodeLoop GPSTAGS m))
    ∧ (∀ img_data,
        dget (Key.str "Fullpath")
            (extract_exif_data_impl TAGS GPSTAGS img_data filename).1
          = some (Val.str filename)
        ∧ dget (Key.str "Filename")
            (extract_exif_data_impl TAGS GPSTAGS img_data filename).1
          = some (Val.str (basename filename))) :=
  ⟨impl_of_none TAGS GPSTAGS filename,
   fun _raw _gv hg hgv => impl_of_gps_not_sub hg hgv,
   fun _raw _m _e hg he => impl_of_gps_error hg he,
   fun img_data => impl_file_vals TAGS GPSTAGS img_data filename⟩

/-- Witness for the amended C4, exercising all three exception sites:
a `None` raw map, a non-dictionary `GPSInfo` value, and a GPS sub-map
on which `_get_lat_lon` raises. -/
theorem exception_keeps_partial_data_witness :
    extract_exif_data_impl tagsEx [] Option.none "p/a.jpg"
        = (addFileVals "p/a.jpg" [], [])
    ∧ extract_exif_data_impl tagsEx [] (some rawBadGps) "p/a.jpg"
        = (general_data tagsEx rawBadGps "p/a.jpg", [])
    ∧ extract_exif_data_impl tagsEx [] (some rawPartial) "p/a.jpg"
        = (general_data tagsEx rawPartial "p/a.jpg",
           decodeLoop [] [(Key.nat 9, Val.int 1)])
    ∧ dget (Key.str "Fullpath")
          (extract_exif_data_impl tagsEx [] (some rawPartial) "p/a.jpg").1
        = some (Val.str "p/a.jpg")
    ∧ dget (Key.str "Filename")
          (extract_exif_data_impl tagsEx [] (some rawPartial) "p/a.jpg").1
        = some (Val.str (basename "p/a.jpg")) :=
  ⟨(exception_keeps_partial_data tagsEx [] "p/a.jpg").1,
   (exception_keeps_partial_data tagsEx [] "p/a.jpg").2.1 rawBadGps (Val.int 3)
     rfl (fun _m => Val.noConfusion),
   (exception_keeps_partial_data tagsEx [] "p/a.jpg").2.2.1 rawPartial
     [(Key.nat 9, Val.int 1)] PyErr.unboundLocal rfl rfl,
   ((exception_keeps_partial_data tagsEx [] "p/a.jpg").2.2.2 (some rawPartial)).1,
   ((exception_keeps_partial_data tagsEx [] "p/a.jpg").2.2.2 (some rawPartial)).2⟩

/-- C5 counterexample: the GPS sub-map holds only the unknown tag id
`99`; its value nevertheless appears in the returned record, under the
Python `None` key produced by `GPSTAGS.get` (the GPS decode loop,
unlike the general one, never pops the `None` key). -/
theorem unknown_gps_id_counterexample :
    extract_exif_data tagsEx gpstagsEx (worldOf "b2.jpg" rawUnknown) "b2.jpg"
      = some [(Key.str "GPSInfo", Val.sub [(Key.nat 99, Val.int 5)]),
              (Key.str "Fullpath", Val.str "b2.jpg"),
              (Key.str "Filename", Val.str "b2.jpg"),
              (Key.none, Val.int 5)] := rfl

/-- C5 (amended): numeric tag ids never appear as keys of either
returned dictionary; the general record's keys are all strings (its
unknown-id entries collapse onto the `None` key, which is popped), but
the GPS sub-record may retain the `None` key holding the value of the
last unnamed GPS tag. -/
theorem decoded_keys_shape (TAGS GPSTAGS : Table)
    (img_data : Option (List (Key × Val))) (filename : String) :
    (∀ a ∈ dkeys (extract_exif_data_impl TAGS GPSTAGS img_data filename).1,
        ∃ s, a = Key.str s)
    ∧ (∀ a ∈ dkeys (extract_exif_data_impl TAGS GPSTAGS img_data filename).2,
        a = Key.none ∨ ∃ s, a = Key.str s) := by
  have hgen : ∀ (raw : List (Key × Val)) a,
      a ∈ dkeys (general_data TAGS raw filename) → ∃ s, a = Key.str s := by
    intro raw a ha
    rcases mem_dkeys_general_data ha with h | h | ⟨n, s, _, h⟩
    · exact ⟨"Fullpath", h⟩
    · exact ⟨"Filename", h⟩
    · exact ⟨s, h⟩
  have hdec : ∀ (m : List (Key × Val)) a,
      a ∈ dkeys (decodeLoop GPSTAGS m) → a = Key.none ∨ ∃ s, a = Key.str s := by
    intro m a ha
    rcases mem_dkeys_decodeLoop ha with h | ⟨n, s, _, h⟩
    · exact Or.inl h
    · exact Or.inr ⟨s, h⟩
  cases img_data with
  | none =>
    rw [impl_of_none]
    refine ⟨?_, ?_⟩
    · intro a ha
      have ha' : a ∈ dkeys (addFileVals filename []) := ha
      rcases mem_dkeys_addFileVals ha' with h | h | h
      · exact ⟨"Fullpath", h⟩
      · exact ⟨"Filename", h⟩
      · simp [dkeys] at h
    · intro a ha
      have ha' : a ∈ dkeys ([] : Rec) := ha
      simp [dkeys] at ha'
  | some raw =>
    cases hgi : dget (Key.str "GPSInfo") (general_data TAGS raw filename) with
    | none =>
      rw [impl_of_no_gps hgi]
      exact ⟨hgen raw, fun a ha => by simp [dkeys] at ha⟩
    | some gv =>
      cases gv with
      | sub m =>
        cases hl : get_lat_lon (decodeLoop GPSTAGS m) with
        | error e =>
          rw [impl_of_gps_error hgi hl]
          exact ⟨hgen raw, hdec m⟩
        | ok p =>
          obtain ⟨la, lo⟩ := p
          rw [impl_of_gps_ok hgi hl]
          refine ⟨hgen raw, ?_⟩
          intro a ha
          rcases mem_dkeys_dinsert ha with h | h
          · exact Or.inr ⟨"Longitude", h⟩
          · rcases mem_dkeys_dinsert h with h' | h'
            · exact Or.inr ⟨"Latitude", h'⟩
            · exact hdec m a h'
      | int n =>
        rw [impl_of_gps_not_sub hgi (fun m => Val.noConfusion)]
        exact ⟨hgen raw, fun a ha => by simp [dkeys] at ha⟩
      | str s =>
        rw [impl_of_gps_not_sub hgi (fun m => Val.noConfusion)]
        exact ⟨hgen raw, fun a ha => by simp [dkeys] at ha⟩
      | flt q =>
        rw [impl_of_gps_not_sub hgi (fun m => Val.noConfusion)]
        exact ⟨hgen raw, fun a ha => by simp [dkeys] at ha⟩
      | coord a b c =>
        rw [impl_of_gps_not_sub hgi (fun m => Val.noConfusion)]
        exact ⟨hgen raw, fun a ha => by simp [dkeys] at ha⟩
      | none =>
        rw [impl_of_gps_not_sub hgi (fun m => Val.noConfusion)]
        exact ⟨hgen raw, fun a ha => by simp [dkeys] at ha⟩

/-- Witness for the amended C5 on the unknown-GPS-id fixture: numeric
ids never appear as keys, and the general record has no `None` key. -/
theorem decoded_keys_shape_witness :
    Key.nat 99 ∉ dkeys (extract_exif_data_impl tagsEx gpstagsEx (some rawUnknown) "b2.jpg").2
    ∧ Key.none ∉ dkeys (extract_exif_data_impl tagsEx gpstagsEx (some rawUnknown) "b2.jpg").1 := by
  constructor
  · intro hmem
    rcases (decoded_keys_shape tagsEx gpstagsEx (some rawUnknown) "b2.jpg").2 _ hmem
      with h | ⟨s, h⟩
    · exact Key.noConfusion h
    · exact Key.noConfusion h
  · intro hmem
    rcases (decoded_keys_shape tagsEx gpstagsEx (some rawUnknown) "b2.jpg").1 _ hmem
      with ⟨s, h⟩
    exact Key.noConfusion h

/-- C6: for every existing file, the record returned by the entry
point carries both `Fullpath` (the full path) and `Filename` (the base
name), whatever the decode outcome. -/
theorem fullpath_filename_always (TAGS GPSTAGS : Table) (world : String → Option File)
    (filename : String) (f : File) (hw : world filename = some f) :
    ∃ r, extract_exif_data TAGS GPSTAGS world filename = some r ∧
      dget (Key.str "Fullpath") r = some (Val.str filename) ∧
      dget (Key.str "Filename") r = some (Val.str (basename filename)) := by
  obtain ⟨img, heq⟩ := extract_of_file TAGS GPSTAGS hw
  obtain ⟨hfp, hfn⟩ := impl_file_vals TAGS GPSTAGS img filename
  rw [heq]
  by_cases hc : ((extract_exif_data_impl TAGS GPSTAGS img filename).1.isEmpty
      || (extract_exif_data_impl TAGS GPSTAGS img filename).2.isEmpty) = true
  · rw [if_pos hc]
    exact ⟨_, rfl, hfp, hfn⟩
  · rw [if_neg hc]
    exact ⟨_, rfl, dget_append_left hfp _, dget_append_left hfn _⟩

/-- Witness for C6 on a file carrying full GPS data. -/
theorem fullpath_filename_always_witness :
    ∃ r, extract_exif_data tagsEx gpstagsEx (worldOf "d/a.jpg" rawFull) "d/a.jpg" = some r ∧
      dget (Key.str "Fullpath") r = some (Val.str "d/a.jpg") ∧
      dget (Key.str "Filename") r = some (Val.str (basename "d/a.jpg")) :=
  fullpath_filename_always tagsEx gpstagsEx (worldOf "d/a.jpg" rawFull) "d/a.jpg"
    ⟨some (some rawFull)⟩ rfl

/-- C7 counterexample: for a `.MOV` file (whose raw data even contains
GPS tags), the returned record is exactly the two file values; the
`dict(default=None)` GPS marker built by `_test_for_mov` is overwritten
by the `_extract_exif_data` call on line 89 and is absent from the
output, contradicting the claimed placeholder marker field. -/
theorem mov_marker_counterexample :
    extract_exif_data tagsEx gpstagsEx (worldOf "d/a.MOV" rawFull) "d/a.MOV"
      = some [(Key.str "Fullpath", Val.str "d/a.MOV"),
              (Key.str "Filename", Val.str "a.MOV")] := rfl

/-- C7 (amended): for every path whose extension lower-cases to
`.mov`, when the file exists the entry point returns exactly
`{Fullpath, Filename}` — with no GPS marker field and no dependence on
the file's contents (the image decoder is never consulted). -/
theorem mov_fast_path (TAGS GPSTAGS : Table) (world : String → Option File)
    (filename : String) (f : File)
    (hmov : isMov filename = true) (hw : world filename = some f) :
    extract_exif_data TAGS GPSTAGS world filename
      = some [(Key.str "Fullpath", Val.str filename),
              (Key.str "Filename", Val.str (basename filename))] := by
  simp only [extract_exif_data, hw, test_for_mov, hmov, if_true]
  rfl

/-- Witness for the amended C7 on a lower-case `.mov` path. -/
theorem mov_fast_path_witness :
    extract_exif_data tagsEx gpstagsEx (worldOf "x.mov" rawFull) "x.mov"
      = some [(Key.str "Fullpath", Val.str "x.mov"),
              (Key.str "Filename", Val.str (basename "x.mov"))] :=
  mov_fast_path tagsEx gpstagsEx (worldOf "x.mov" rawFull) "x.mov"
    ⟨some (some rawFull)⟩ rfl rfl

/-- C8: when the GPS sub-map is present with all four fields (both
coordinates being Rational triples and both references truthy) but some
Rational has a zero denominator, the extraction still returns a record
(no exception escapes) and that record has no `Latitude` or `Longitude`
key. -/
theorem zero_denominator_no_latlon
    (TAGS GPSTAGS : Table) (world : String → Option File) (filename : String)
    (f : File) (raw m : List (Key × Val)) (latr lonr : Val)
    (p1 p2 p3 q1 q2 q3 : Int × Int)
    (hw : world filename = some f) (hm : isMov filename = false)
    (hf : f.exif = some (some raw))
    (hg : dget (Key.str "GPSInfo") (general_data TAGS raw filename) = some (Val.sub m))
    (h1 : dget (Key.str "GPSLatitude") (decodeLoop GPSTAGS m) = some (Val.coord p1 p2 p3))
    (h2 : dget (Key.str "GPSLongitude") (decodeLoop GPSTAGS m) = some (Val.coord q1 q2 q3))
    (h3 : dget (Key.str "GPSLatitudeRef") (decodeLoop GPSTAGS m) = some latr)
    (h4 : dget (Key.str "GPSLongitudeRef") (decodeLoop GPSTAGS m) = some lonr)
    (t3 : pyTruthy latr = true) (t4 : pyTruthy lonr = true)
    (hzero : p1.2 = 0 ∨ p2.2 = 0 ∨ p3.2 = 0 ∨ q1.2 = 0 ∨ q2.2 = 0 ∨ q3.2 = 0)
    (hT : ∀ p ∈ TAGS, p.2 ≠ "Latitude" ∧ p.2 ≠ "Longitude")
    (hG : ∀ p ∈ GPSTAGS, p.2 ≠ "Latitude" ∧ p.2 ≠ "Longitude") :
    ∃ r, extract_exif_data TAGS GPSTAGS world filename = some r ∧
      Key.str "Latitude" ∉ dkeys r ∧ Key.str "Longitude" ∉ dkeys r := by
  have hred := get_lat_lon_of_truthy h1 h2 h3 h4 rfl rfl t3 t4
  have herr : ∃ e, get_lat_lon (decodeLoop GPSTAGS m) = .error e := by
    by_cases hp : p1.2 = 0 ∨ p2.2 = 0 ∨ p3.2 = 0
    · rcases convert_error_of_zero_denom hp with ⟨e, he⟩
      exact ⟨e, by rw [hred, he]⟩
    · have hq : q1.2 = 0 ∨ q2.2 = 0 ∨ q3.2 = 0 := by tauto
      rcases convert_error_of_zero_denom hq with ⟨e, he⟩
      push_neg at hp
      refine ⟨e, ?_⟩
      rw [hred, convert_ok_of_ne_zero hp.1 hp.2.1 hp.2.2, he]
  rcases herr with ⟨e, he⟩
  exact no_latlon_of_error hw hm hf hg he hT hG

/-- Witness for C8: a GPS latitude of `(10,0) (30,1) (0,1)`. -/
theorem zero_denominator_no_latlon_witness :
    ∃ r, extract_exif_data tagsEx gpstagsEx (worldOf "c.jpg" rawZero) "c.jpg" = some r ∧
      Key.str "Latitude" ∉ dkeys r ∧ Key.str "Longitude" ∉ dkeys r :=
  zero_denominator_no_latlon tagsEx gpstagsEx (worldOf "c.jpg" rawZero) "c.jpg"
    ⟨some (some rawZero)⟩ rawZero
    [(Key.nat 3, Val.coord (10, 0) (30, 1) (0, 1)), (Key.nat 4, coordLon),
     (Key.nat 5, Val.str "N"), (Key.nat 6, Val.str "E")]
    (Val.str "N") (Val.str "E")
    (10, 0) (30, 1) (0, 1) (20, 1) (0, 1) (0, 1)
    rfl rfl rfl rfl rfl rfl rfl rfl rfl rfl
    (Or.inl rfl) (by decide) (by decide)

/-- C9: the returned series has unique keys (under the factual
hypotheses that the two PIL name tables avoid the four service names
and do not overlap), and its insertion order is: decoded general
fields in raw-map order, then `Fullpath` and `Filename`, then — when a
GPS dictionary was decoded and conversion succeeded — the decoded GPS
fields followed by `Latitude` and `Longitude`; with no GPS sub-map the
series is just the general record. -/
theorem series_keys_unique_and_ordered
    (TAGS GPSTAGS : Table) (world : String → Option File) (filename : String)
    (f : File) (raw : List (Key × Val))
    (hw : world filename = some f)
    (hT : ∀ p ∈ TAGS,
      p.2 ≠ "Fullpath" ∧ p.2 ≠ "Filename" ∧ p.2 ≠ "Latitude" ∧ p.2 ≠ "Longitude")
    (hG : ∀ p ∈ GPSTAGS,
      p.2 ≠ "Fullpath" ∧ p.2 ≠ "Filename" ∧ p.2 ≠ "Latitude" ∧ p.2 ≠ "Longitude")
    (hTG : ∀ p ∈ TAGS, ∀ q ∈ GPSTAGS, p.2 ≠ q.2) :
    (∀ r, extract_exif_data TAGS GPSTAGS world filename = some r → (dkeys r).Nodup)
    ∧ (isMov filename = false → f.exif = some (some raw) →
       (dget (Key.str "GPSInfo") (general_data TAGS raw filename) = Option.none →
          extract_exif_data TAGS GPSTAGS world filename
            = some (dpop Key.none (decodeLoop TAGS raw)
                ++ [(Key.str "Fullpath", Val.str filename),
                    (Key.str "Filename", Val.str (basename filename))]))
       ∧ (∀ m la lo,
            dget (Key.str "GPSInfo") (general_data TAGS raw filename) = some (Val.sub m) →
            get_lat_lon (decodeLoop GPSTAGS m) = Except.ok (la, lo) →
            extract_exif_data TAGS GPSTAGS world filename
              = some ((dpop Key.none (decodeLoop TAGS raw)
                    ++ [(Key.str "Fullpath", Val.str filename),
                        (Key.str "Filename", Val.str (basename filename))])
                  ++ (decodeLoop GPSTAGS m
                    ++ [(Key.str "Latitude", Val.flt la),
                        (Key.str "Longitude", Val.flt lo)])))) := by
  constructor
  · intro r hr
    obtain ⟨img, heq⟩ := extract_of_file TAGS GPSTAGS hw
    rw [heq] at hr
    obtain ⟨hn1, hn2, hdisj⟩ := impl_nodup_disjoint TAGS GPSTAGS img filename
      (fun p hp => ⟨(hT p hp).2.2.1, (hT p hp).2.2.2⟩)
      (fun p hp => ⟨(hG p hp).1, (hG p hp).2.1⟩)
      hTG
    by_cases hc : ((extract_exif_data_impl TAGS GPSTAGS img filename).1.isEmpty
        || (extract_exif_data_impl TAGS GPSTAGS img filename).2.isEmpty) = true
    · rw [if_pos hc] at hr
      rw [← Option.some.inj hr]
      exact hn1
    · rw [if_neg hc] at hr
      rw [← Option.some.inj hr, dkeys_append, List.nodup_append]
      exact ⟨hn1, hn2, fun a ha hb => hdisj a ha hb⟩
  · intro hm hf
    constructor
    · intro hg0
      rw [extract_of_raw hw hm hf, impl_of_no_gps hg0]
      simp only [List.isEmpty_nil, Bool.or_true, if_true]
      rw [general_data_eq_append (fun p hp => (hT p hp).1) (fun p hp => (hT p hp).2.1)]
    · intro m la lo hg hok
      rw [extract_of_raw hw hm hf, impl_of_gps_ok hg hok]
      have e1 : (general_data TAGS raw filename).isEmpty = false :=
        addFileVals_ne_nil filename _
      have e2 : (dinsert (Key.str "Longitude") (Val.flt lo)
          (dinsert (Key.str "Latitude") (Val.flt la) (decodeLoop GPSTAGS m))).isEmpty
            = false := dinsert_ne_nil _ _ _
      simp only [e1, e2, Bool.or_self]
      rw [if_neg (by simp : ¬ ((false : Bool) = true))]
      rw [general_data_eq_append (fun p hp => (hT p hp).1) (fun p hp => (hT p hp).2.1),
        gps_record_eq_append (fun p hp => (hG p hp).2.2.1) (fun p hp => (hG p hp).2.2.2)]

/-- Witness for C9: the full-GPS fixture; the series is the general
fields, the file values, the GPS fields, then the computed
coordinates, with pairwise distinct keys. -/
theorem series_keys_unique_and_ordered_witness :
    extract_exif_data tagsEx gpstagsEx (worldOf "d/a.jpg" rawFull) "d/a.jpg"
      = some ((dpop Key.none (decodeLoop tagsEx rawFull)
            ++ [(Key.str "Fullpath", Val.str "d/a.jpg"),
                (Key.str "Filename", Val.str (basename "d/a.jpg"))])
          ++ (decodeLoop gpstagsEx gpsFull
            ++ [(Key.str "Latitude", Val.flt (((10 : Int) : ℚ) / ((1 : Int) : ℚ)
                  + ((((30 : Int) : ℚ)) / ((1 : Int) : ℚ)) / 60
                  + ((((0 : Int) : ℚ)) / ((1 : Int) : ℚ)) / 3600)),
                (Key.str "Longitude", Val.flt (((20 : Int) : ℚ) / ((1 : Int) : ℚ)
                  + ((((0 : Int) : ℚ)) / ((1 : Int) : ℚ)) / 60
                  + ((((0 : Int) : ℚ)) / ((1 : Int) : ℚ)) / 3600))]))
    ∧ (dkeys ((dpop Key.none (decodeLoop tagsEx rawFull)
            ++ [(Key.str "Fullpath", Val.str "d/a.jpg"),
                (Key.str "Filename", Val.str (basename "d/a.jpg"))])
          ++ (decodeLoop gpstagsEx gpsFull
            ++ [(Key.str "Latitude", Val.flt (((10 : Int) : ℚ) / ((1 : Int) : ℚ)
                  + ((((30 : Int) : ℚ)) / ((1 : Int) : ℚ)) / 60
                  + ((((0 : Int) : ℚ)) / ((1 : Int) : ℚ)) / 3600)),
                (Key.str "Longitude", Val.flt (((20 : Int) : ℚ) / ((1 : Int) : ℚ)
                  + ((((0 : Int) : ℚ)) / ((1 : Int) : ℚ)) / 60
                  + ((((0 : Int) : ℚ)) / ((1 : Int) : ℚ)) / 3600))]))).Nodup := by
  have h := series_keys_unique_and_ordered tagsEx gpstagsEx (worldOf "d/a.jpg" rawFull)
    "d/a.jpg" ⟨some (some rawFull)⟩ rawFull rfl (by decide) (by decide) (by decide)
  have heq := (h.2 rfl rfl).2 gpsFull
    (((10 : Int) : ℚ) / ((1 : Int) : ℚ)
      + ((((30 : Int) : ℚ)) / ((1 : Int) : ℚ)) / 60
      + ((((0 : Int) : ℚ)) / ((1 : Int) : ℚ)) / 3600)
    (((20 : Int) : ℚ) / ((1 : Int) : ℚ)
      + ((((0 : Int) : ℚ)) / ((1 : Int) : ℚ)) / 60
      + ((((0 : Int) : ℚ)) / ((1 : Int) : ℚ)) / 3600)
    rfl rfl
  exact ⟨heq, h.1 _ heq⟩

/-- C10: when the general record resolves a tag to `GPSInfo`, the raw
nested tag map stays in the returned record under the `GPSInfo` key,
alongside whatever decoded GPS fields were appended. -/
theorem gpsinfo_raw_retained
    (TAGS GPSTAGS : Table) (world : String → Option File) (filename : String)
    (f : File) (raw m : List (Key × Val))
    (hw : world filename = some f) (hm : isMov filename = false)
    (hf : f.exif = some (some raw))
    (hg : dget (Key.str "GPSInfo") (general_data TAGS raw filename) = some (Val.sub m)) :
    ∃ r, extract_exif_data TAGS GPSTAGS world filename = some r ∧
      dget (Key.str "GPSInfo") r = some (Val.sub m) := by
  rw [extract_of_raw hw hm hf]
  cases hl : get_lat_lon (decodeLoop GPSTAGS m) with
  | error e =>
    rw [impl_of_gps_error hg hl]
    by_cases hge : (decodeLoop GPSTAGS m).isEmpty = true
    · refine ⟨general_data TAGS raw filename, ?_, hg⟩
      simp [hge]
    · have e1 : (general_data TAGS raw filename).isEmpty = false :=
        addFileVals_ne_nil filename _
      refine ⟨general_data TAGS raw filename ++ decodeLoop GPSTAGS m, ?_,
        dget_append_left hg _⟩
      simp only [e1, Bool.false_or]
      rw [if_neg hge]
  | ok p =>
    obtain ⟨la, lo⟩ := p
    rw [impl_of_gps_ok hg hl]
    have e1 : (general_data TAGS raw filename).isEmpty = false :=
      addFileVals_ne_nil filename _
    have e2 : (dinsert (Key.str "Longitude") (Val.flt lo)
        (dinsert (Key.str "Latitude") (Val.flt la) (decodeLoop GPSTAGS m))).isEmpty
          = false := dinsert_ne_nil _ _ _
    refine ⟨general_data TAGS raw filename
        ++ dinsert (Key.str "Longitude") (Val.flt lo)
             (dinsert (Key.str "Latitude") (Val.flt la) (decodeLoop GPSTAGS m)), ?_,
      dget_append_left hg _⟩
    simp only [e1, e2, Bool.or_self]
    rw [if_neg (by simp : ¬ ((false : Bool) = true))]

/-- Witness for C10 on the full-GPS fixture. -/
theorem gpsinfo_raw_retained_witness :
    ∃ r, extract_exif_data tagsEx gpstagsEx (worldOf "d/a.jpg" rawFull) "d/a.jpg" = some r ∧
      dget (Key.str "GPSInfo") r = some (Val.sub gpsFull) :=
  gpsinfo_raw_retained tagsEx gpstagsEx (worldOf "d/a.jpg" rawFull) "d/a.jpg"
    ⟨some (some rawFull)⟩ rawFull gpsFull rfl rfl rfl rfl

end Exiflib
